import Mathlib

/-!
Verification development for the stacking subsystem of a regression
experiment-automation module (stack_models, create_stacknet, predict_model).

The Python source is embedded shallowly:
- a data table is column-oriented: an ordered list of (column name, values),
  matching a pandas DataFrame after reset_index (row identity is positional);
- an estimator is a record carrying its display strings, its capability set,
  a prediction function and the data it was last fitted on (sklearn fit
  mutates the object in place; the embedding passes the updated record
  explicitly and resolves aliasing by hand where the source re-fits a stored
  object);
- fallible steps return Except: the error constructors mirror the concrete
  Python failure that the source (or the external libraries it calls) raises.
-/

namespace Pycaret

/-- Numeric values of feature and target cells.  Decimal rounding is modelled
over the rationals. -/
abbrev Val := ℚ

/-- A column-oriented table: ordered list of (column name, column values).
Column order is the pandas column order; rows are positional. -/
abbrev Table := List (String × List Val)

/-- Scan for pat as a contiguous sublist. -/
def substrAux (pat : List Char) : List Char → Bool
  | [] => pat.isEmpty
  | c :: cs => pat.isPrefixOf (c :: cs) || substrAux pat cs

/-- Python substring test (pat in s). -/
def containsSub (pat s : String) : Bool :=
  substrAux pat.data s.data

/-- An estimator object.  strType models str(type(e)); name models
str(e).split("(")[0] (the display name used for engineered column names).
hasFit and hasPredict record whether the object exposes the fit / predict
methods.  predictFn is the behaviour of predict, given the data the object
is currently fitted on; a none result models the call raising. -/
structure Estimator where
  strType : String
  name : String
  hasFit : Bool
  hasPredict : Bool
  predictFn : Option (Table × List Val) → Table → Option (List Val)
  fittedOn : Option (Table × List Val) := none

/-- e.fit(X, y): records the training data.  sklearn fit mutates the object
and returns it; callers that alias the object observe the updated record. -/
def Estimator.fit (e : Estimator) (X : Table) (y : List Val) : Estimator :=
  { e with fittedOn := some (X, y) }

/-- e.predict(X): raises (none) when the object has no predict method. -/
def Estimator.predict (e : Estimator) (X : Table) : Option (List Val) :=
  if e.hasPredict then e.predictFn e.fittedOn X else none

/-- sklearn clone, as performed inside cross_val_predict: fresh unfitted copy. -/
def Estimator.clone (e : Estimator) : Estimator :=
  { e with fittedOn := none }

/-- Failure modes observable from the stacking calls.  Each constructor names
the concrete Python error it stands for. -/
inductive StackErr
  /-- sys.exit of the Value Error message for a non sklearn / non CatBoost
  object in estimator_list or meta_model (regression.py:3811-3819, 4267-4276). -/
  | unsupportedEstimator
  /-- ValueError raised by the external KFold splitter: n_splits below 2 at
  construction, or above the number of rows at split time. -/
  | invalidFoldCount
  /-- an exception propagated from an underlying estimator fit / predict call. -/
  | estimatorRaise
  /-- pandas ValueError: length mismatch when assigning df.columns = names. -/
  | lengthMismatch
  /-- Python NameError / IndexError (empty estimator_list cases). -/
  | runtimeError
deriving DecidableEq, Repr

/-- sklearn KFold fold sizes for N rows and K splits: the first N mod K folds
get one extra row. -/
def kfoldSizes (N K : Nat) : List Nat :=
  (List.range K).map fun i => N / K + if i < N % K then 1 else 0

/-- Contiguous (start, length) blocks for the given fold sizes. -/
def foldBlocks (start : Nat) : List Nat → List (Nat × Nat)
  | [] => []
  | sz :: rest => (start, sz) :: foldBlocks (start + sz) rest

/-- The (start, length) test blocks of an unshuffled KFold over N rows. -/
def kfoldBlocks (N K : Nat) : List (Nat × Nat) :=
  foldBlocks 0 (kfoldSizes N K)

/-- The test index groups of an unshuffled KFold over N rows. -/
def kfoldTestIndices (N K : Nat) : List (List Nat) :=
  (kfoldBlocks N K).map fun b => (List.range b.2).map (b.1 + ·)

/-- Modelled from the spec: the Fold Splitter of section 4.1 is realised by
the external sklearn KFold class, whose code is not under src (the module only
calls it through cross_val_predict and KFold(fold, random_state=seed)).  Its
documented validation raises a ValueError for K below 2 at construction and
for K above the row count at split time; otherwise it yields the contiguous
unshuffled test blocks. -/
def foldSplit (N K : Nat) : Except StackErr (List (Nat × Nat)) :=
  if K < 2 then .error .invalidFoldCount
  else if N < K then .error .invalidFoldCount
  else .ok (kfoldBlocks N K)

/-- The partition of row positions that cross_val_predict derives for one
estimator call.  The source derives a fresh splitter inside every call; the
estimator argument records that per-call derivation.  The splitter is
unshuffled, so the partition does not depend on the estimator. -/
def oofFoldPartition (_e : Estimator) (N K : Nat) : List (List Nat) :=
  kfoldTestIndices N K

/-- The partition used by the meta-evaluation loop, KFold(fold,
random_state=seed): shuffle is left at its default False, so the seed does
not influence the partition. -/
def metaKFoldPartition (_seed N K : Nat) : List (Nat × Nat) :=
  kfoldBlocks N K

/-- Number of rows of a table (length of its first column; 0 for no columns). -/
def numRows (t : Table) : Nat :=
  (t.headD ("", [])).2.length

/-- Rows of the test block b = (start, length) of every column. -/
def testRows (t : Table) (b : Nat × Nat) : Table :=
  t.map fun c => (c.1, (c.2.drop b.1).take b.2)

/-- Rows outside the test block b of every column (the fold training rows). -/
def trainRows (t : Table) (b : Nat × Nat) : Table :=
  t.map fun c => (c.1, c.2.take b.1 ++ c.2.drop (b.1 + b.2))

/-- Test-block slice of a value vector. -/
def testVals (v : List Val) (b : Nat × Nat) : List Val :=
  (v.drop b.1).take b.2

/-- Training slice of a value vector (complement of the test block). -/
def trainVals (v : List Val) (b : Nat × Nat) : List Val :=
  v.take b.1 ++ v.drop (b.1 + b.2)

/-- Per-fold loop of cross_val_predict: fit a fresh clone on the training
rows of each block and predict its test rows; the unshuffled blocks are
contiguous and in order, so concatenation restores the original row order. -/
def oofLoop (e : Estimator) (X : Table) (y : List Val) :
    List (Nat × Nat) → Except StackErr (List Val)
  | [] => .ok []
  | b :: bs =>
    match (e.clone.fit (trainRows X b) (trainVals y b)).predict (testRows X b) with
    | some p =>
      match oofLoop e X y bs with
      | .ok rest => .ok (p ++ rest)
      | .error err => .error err
    | none => .error .estimatorRaise

/-- cross_val_predict(model, X, y, cv=K, method=predict): out-of-fold
prediction vector in original row order. -/
def crossValPredict (e : Estimator) (X : Table) (y : List Val) (K : Nat) :
    Except StackErr (List Val) :=
  match foldSplit (numRows X) K with
  | .error err => .error err
  | .ok blocks => oofLoop e X y blocks

/-- df.columns = names: pandas raises a ValueError when the label count does
not match the column count. -/
def setColumns (t : Table) (names : List String) : Except StackErr Table :=
  if names.length = t.length then .ok (names.zip (t.map (·.2))) else .error .lengthMismatch

/-- The CatBoost display-name fixup applied before building column names. -/
def fixCatBoost (n : String) : String :=
  if containsSub "CatBoostRegressor" n then "CatBoostRegressor" else n

/-- Engineered column names of stack_models and of the single-layer branch of
predict_model: display name, CatBoost fixup, then suffix _counter
(regression.py:3909-3931 and 5760-5783). -/
def singleStackNames (bases : List Estimator) : List String :=
  (bases.map fun e => fixCatBoost e.name).enum.map fun p => p.2 ++ "_" ++ toString p.1

/-- Suffix _BaseLevel_counter numbering used for base-level columns of a
stack net. -/
def numberBaseLevel (names : List String) : List String :=
  names.enum.map fun p => p.2 ++ "_BaseLevel_" ++ toString p.1

/-- The base-level CatBoost fixup loop of create_stacknet
(regression.py:4347-4354) as written: the else clause is aligned with the for
statement, so it is a for-else that runs once after the loop, appending the
loop variable (the last name).  The per-element else branch never runs.  An
empty name list leaves the loop variable unbound (NameError), modelled as
none. -/
def stacknetBaseFixedBuggy (names : List String) : Option (List String) :=
  match names.getLast? with
  | none => none
  | some last =>
    some (((names.filter fun n => containsSub "CatBoostRegressor" n).map
      fun _ => "CatBoostRegressor") ++ [last])

/-- Base-level column names computed by create_stacknet during training
(regression.py:4340-4366), including the for-else slip. -/
def stacknetTrainBaseNames (bases : List Estimator) : Option (List String) :=
  (stacknetBaseFixedBuggy (bases.map (·.name))).map numberBaseLevel

/-- Base-level column names reconstructed by the multi-layer branch of
predict_model (regression.py:5619-5644): here the CatBoost fixup is a
correctly indented if-else applied to every name. -/
def stacknetInferBaseNames (bases : List Estimator) : List String :=
  numberBaseLevel (bases.map fun e => fixCatBoost e.name)

/-- Intermediate-level column name: display name with CatBoost fixup,
suffix _InterLevel_<level>_<position> (regression.py:4474-4478 and
5696-5700). -/
def interColName (e : Estimator) (interCounter modelCounter : Nat) : String :=
  fixCatBoost e.name ++ "_InterLevel_" ++ toString interCounter ++ "_" ++ toString modelCounter

/-- The estimator validation test of both orchestrators: the object is
accepted when str(type(e)) contains sklearn or CatBoostRegressor
(regression.py:3812-3819, 4268-4276).  The fit / predict capabilities are
not consulted. -/
def estimatorTypeOk (e : Estimator) : Bool :=
  containsSub "sklearn" e.strType || containsSub "CatBoostRegressor" e.strType

/-- Combined acceptance of a flat estimator list plus optional meta model. -/
def estOkAll (bases : List Estimator) (meta? : Option Estimator) : Bool :=
  bases.all estimatorTypeOk && (meta?.map estimatorTypeOk).getD true

/-- Combined acceptance of a nested estimator list plus optional meta model. -/
def netOkAll (levels : List (List Estimator)) (meta? : Option Estimator) : Bool :=
  levels.all (·.all estimatorTypeOk) && (meta?.map estimatorTypeOk).getD true

/-- Validation prologue of stack_models: sys.exit on the first object whose
type string matches neither pattern (the observable outcome only depends on
whether all objects pass). -/
def stackModelsValidate (bases : List Estimator) (meta? : Option Estimator) :
    Except StackErr Unit :=
  if estOkAll bases meta? then .ok () else .error .unsupportedEstimator

/-- Validation prologue of create_stacknet (nested loop over sub lists). -/
def createStacknetValidate (levels : List (List Estimator)) (meta? : Option Estimator) :
    Except StackErr Unit :=
  if netOkAll levels meta? then .ok () else .error .unsupportedEstimator

/-- The default meta model: a plain linear regressor from the external
library (regression.py:3887-3890).  External estimator: its predictions are
opaque to this module; the model validates the feature count against the
training table, as the library class does. -/
def linearRegressionDefault : Estimator where
  strType := "sklearn.linear_model._base.LinearRegression"
  name := "LinearRegression"
  hasFit := true
  hasPredict := true
  predictFn := fun fo t =>
    match fo with
    | some (Xf, _) => if t.length = Xf.length then some (List.replicate (numRows t) 0) else none
    | none => none
  fittedOn := none

/-- Sequential out-of-fold loop over the base estimators of stack_models:
each iteration runs cross_val_predict on the raw training table
(regression.py:3939-3963). -/
def oofColumns (X : Table) (y : List Val) (K : Nat) :
    List Estimator → Except StackErr (List (List Val))
  | [] => .ok []
  | e :: es =>
    match crossValPredict e X y K with
    | .error err => .error err
    | .ok col =>
      match oofColumns X y K es with
      | .ok cols => .ok (col :: cols)
      | .error err => .error err

/-- Meta-feature assembly of stack_models (regression.py:3933-3979): the
out-of-fold columns are gathered next to the target column, the column names
are assigned, the target column is dropped, and the raw features are kept in
front exactly when restack is set.  Net effect: the named out-of-fold table,
optionally behind the raw features. -/
def singleAssembledTable (bases : List Estimator) (K : Nat) (restack : Bool)
    (X : Table) (y : List Val) : Except StackErr Table :=
  match oofColumns X y K bases with
  | .error err => .error err
  | .ok cols =>
    .ok (if restack then X ++ (singleStackNames bases).zip cols
         else (singleStackNames bases).zip cols)

/-- The meta cross-validation loop of both orchestrators
(regression.py:4010-4033 and 4520-4541): the SAME estimator object is re-fit
on each fold in turn and asked to predict the fold test rows; the state left
behind is the fit on the last fold. -/
def metaCVLoop (dX : Table) (y : List Val) :
    Estimator → List (Nat × Nat) → Except StackErr Estimator
  | m, [] => .ok m
  | m, b :: bs =>
    match (m.fit (trainRows dX b) (trainVals y b)).predict (testRows dX b) with
    | some _ => metaCVLoop dX y (m.fit (trainRows dX b) (trainVals y b)) bs
    | none => .error .estimatorRaise

/-- Elements of the single-layer Stack Container list: trained estimator
objects plus the trailing restack flag (a Python bool in the same list). -/
inductive StackElem
  | est (e : Estimator)
  | flag (b : Bool)

/-- Elements of the multi-layer Stack Container list: per-level lists of
trained estimators, then the meta estimator, then the restack flag. -/
inductive NetElem
  | level (l : List Estimator)
  | est (e : Estimator)
  | flag (b : Bool)

/-- stack_models (regression.py:3710-4165), its display and scoring output
omitted.  Steps: validation; default meta; fit every base estimator on the
full table while collecting its out-of-fold column; assemble the meta table;
fit the meta object on the full assembled table and append it to the output
list; run the meta cross-validation loop, which re-fits that same object per
fold (the appended reference aliases it, so the returned element carries the
post-loop state); append the restack flag.  The chosen data (train split or
full data under finalize) is the X, y argument pair. -/
def stackModels (bases : List Estimator) (meta? : Option Estimator) (K : Nat)
    (restack : Bool) (X : Table) (y : List Val) :
    Except StackErr (List StackElem) :=
  match stackModelsValidate bases meta? with
  | .error err => .error err
  | .ok _ =>
    match singleAssembledTable bases K restack X y with
    | .error err => .error err
    | .ok dataX =>
      match foldSplit (numRows dataX) K with
      | .error err => .error err
      | .ok blocks =>
        match metaCVLoop dataX y ((meta?.getD linearRegressionDefault).fit dataX y) blocks with
        | .error err => .error err
        | .ok mFinal =>
          .ok (((bases.map fun e => e.fit X y).map StackElem.est)
            ++ [.est mFinal, .flag restack])

/-- Out-of-fold columns of one intermediate level of create_stacknet
(regression.py:4451-4487): each model is fit on the carried table, then
cross-validated on it, and its column is named with the level and position
counters. -/
def interOofColumns (tbl : Table) (y : List Val) (K : Nat)
    (interC : Nat) (modelC : Nat) : List Estimator → Except StackErr Table
  | [] => .ok []
  | e :: es =>
    match crossValPredict (e.fit tbl y) tbl y K with
    | .error err => .error err
    | .ok oof =>
      match interOofColumns tbl y K interC (modelC + 1) es with
      | .ok rest => .ok ((interColName e interC modelC, oof) :: rest)
      | .error err => .error err

/-- One intermediate level of create_stacknet (regression.py:4446-4497): fit
and out-of-fold-evaluate every model of the level on the carried table,
concatenate the new columns behind it, and, when restack is false, keep only
the last len(level) columns going forward. -/
def processInterLevel (level : List Estimator) (tbl : Table) (y : List Val)
    (K : Nat) (restack : Bool) (interC : Nat) :
    Except StackErr (List Estimator × Table) :=
  match interOofColumns tbl y K interC 0 level with
  | .error err => .error err
  | .ok cols =>
    .ok (level.map fun e => e.fit tbl y,
      if restack then tbl ++ cols
      else (tbl ++ cols).drop ((tbl ++ cols).length - level.length))

/-- The loop over intermediate levels, threading the carried table and
appending each fitted level to the output in order. -/
def interLoop (y : List Val) (K : Nat) (restack : Bool) :
    List (List Estimator) → Table → Nat →
    Except StackErr (List (List Estimator) × Table)
  | [], tbl, _ => .ok ([], tbl)
  | lv :: rest, tbl, interC =>
    match processInterLevel lv tbl y K restack interC with
    | .error err => .error err
    | .ok (fitted, carried) =>
      match interLoop y K restack rest carried (interC + 1) with
      | .ok (fls, finalT) => .ok (fitted :: fls, finalT)
      | .error err => .error err

/-- create_stacknet (regression.py:4169-4666), display and scoring output
omitted.  Steps: validation; base level naming (with the for-else slip of
stacknetTrainBaseNames); fit the base level and collect its out-of-fold
columns; assign the buggy name list to those columns (pandas raises on a
length mismatch); optionally restack the raw features in front; run the
intermediate levels; fit the meta object on the final carried table and run
the meta cross-validation loop over it (same aliasing as stack_models: the
stored meta element carries the post-loop state); return the nested
container with the restack flag appended. -/
def createStacknet (levels : List (List Estimator)) (meta? : Option Estimator)
    (K : Nat) (restack : Bool) (X : Table) (y : List Val) :
    Except StackErr (List NetElem) :=
  match createStacknetValidate levels meta? with
  | .error err => .error err
  | .ok _ =>
    match levels with
    | [] => .error .runtimeError
    | baseLevel :: interLevels =>
      match stacknetTrainBaseNames baseLevel with
      | none => .error .runtimeError
      | some names =>
        match oofColumns X y K baseLevel with
        | .error err => .error err
        | .ok cols =>
          match setColumns (cols.map fun c => ("", c)) names with
          | .error err => .error err
          | .ok baseDf0 =>
            match interLoop y K restack interLevels
                (if restack then X ++ baseDf0 else baseDf0) 0 with
            | .error err => .error err
            | .ok (fls, finalTbl) =>
              match foldSplit (numRows finalTbl) K with
              | .error err => .error err
              | .ok blocks =>
                match metaCVLoop finalTbl y
                    ((meta?.getD linearRegressionDefault).fit finalTbl y) blocks with
                | .error err => .error err
                | .ok mFinal =>
                  .ok ((NetElem.level (baseLevel.map fun e => e.fit X y)
                      :: fls.map NetElem.level)
                    ++ [.est mFinal, .flag restack])

/-- Base predictions of the single-layer branch of predict_model
(regression.py:5785-5794): every base estimator predicts the transformed
rows; these calls sit outside any try block, so a raise propagates. -/
def basePreds (Xt : Table) : List Estimator → Except StackErr (List (List Val))
  | [] => .ok []
  | e :: es =>
    match e.predict Xt with
    | some p =>
      match basePreds Xt es with
      | .ok ps => .ok (p :: ps)
      | .error err => .error err
    | none => .error .estimatorRaise

/-- The named base-prediction table df of the single-layer inference branch
(regression.py:5760-5796): unnamed prediction columns, then
df.columns = model_names. -/
def singleBasePredTable (bases : List Estimator) (Xt : Table) :
    Except StackErr Table :=
  match basePreds Xt bases with
  | .error err => .error err
  | .ok ps => setColumns (ps.map fun p => ("", p)) (singleStackNames bases)

/-- Final prediction of the single-layer inference branch
(regression.py:5798-5808).  The restack flag popped from the container is
never consulted (the parameter is unused); the meta model is tried on the
plain base-prediction table df first and on df_restack = [Xtest, df] only
when that call raises; a second raise propagates. -/
def predictSingleCore (bases : List Estimator) (meta : Estimator)
    (restack : Bool) (Xt : Table) : Except StackErr (List Val) :=
  match singleBasePredTable bases Xt with
  | .error err => .error err
  | .ok df =>
    match meta.predict df with
    | some v => .ok v
    | none =>
      match meta.predict (Xt ++ df) with
      | some v => .ok v
      | none => .error .estimatorRaise

/-- Decimal rounding to d places, modelled over the rationals (pandas round
on the Label column; tie behaviour of binary floats is abstracted to
half-up).  For q = a / b this is floor of (q 10^d + 1/2) over 10^d. -/
def roundDec (d : Nat) (q : Val) : Val :=
  mkRat ((2 * q.num * (10 : Int) ^ d + q.den).fdiv (2 * q.den)) (10 ^ d)

/-- The single-layer branch of predict_model when an external data table is
passed (regression.py:5567-5600 and 5745-5832, return at 5900): the rows are
transformed by the preprocessing pipeline before prediction (the transform
argument), the predictions are rounded to the round parameter (Python
default 4) into a column named Label, and that column is concatenated behind
the UNtransformed input copy, which is returned.  (The attempt to re-finalize
the container before predicting, regression.py:5591-5594, re-enters the
training orchestrator when the experiment globals are live; the container
actually used from line 5752 on is the model argument here.) -/
def predictModelDataSingle (transform : Table → Table) (bases : List Estimator)
    (meta : Estimator) (restack : Bool) (data : Table) (roundD : Nat) :
    Except StackErr Table :=
  match predictSingleCore bases meta restack (transform data) with
  | .ok pred => .ok (data ++ [("Label", pred.map (roundDec roundD))])
  | .error err => .error err

/-! Concrete estimator objects and tables used to instantiate the theorems.
The prediction functions stand for external library behaviour: constant
predictors, a feature-count-validating predictor (as the sklearn linear
models behave), an accept-anything predictor and an always-raising one. -/

/-- Constant predictor: one value per input row, any table accepted. -/
def constPredict (v : Val) : Option (Table × List Val) → Table → Option (List Val) :=
  fun _ t => some (List.replicate (numRows t) v)

/-- Feature-count-validating predictor: raises unless fitted and the input
width equals the training width (sklearn linear model behaviour). -/
def shapePredict (v : Val) : Option (Table × List Val) → Table → Option (List Val) :=
  fun fo t =>
    match fo with
    | some (Xf, _) => if t.length = Xf.length then some (List.replicate (numRows t) v) else none
    | none => none

/-- Width-reporting predictor: accepts any table and predicts its column
count for every row (used to observe which table was passed). -/
def widthPredict : Option (Table × List Val) → Table → Option (List Val) :=
  fun _ t => some (List.replicate (numRows t) (t.length : ℚ))

/-- A linear regression object. -/
def lrModel : Estimator where
  strType := "sklearn.linear_model._base.LinearRegression"
  name := "LinearRegression"
  hasFit := true
  hasPredict := true
  predictFn := constPredict 1

/-- A ridge regression object. -/
def ridgeModel : Estimator where
  strType := "sklearn.linear_model._ridge.Ridge"
  name := "Ridge"
  hasFit := true
  hasPredict := true
  predictFn := constPredict 2

/-- A decision tree object. -/
def dtModel : Estimator where
  strType := "sklearn.tree._classes.DecisionTreeRegressor"
  name := "DecisionTreeRegressor"
  hasFit := true
  hasPredict := true
  predictFn := constPredict 7

/-- A meta model that validates the feature count, as the library ones do. -/
def metaShape : Estimator where
  strType := "sklearn.linear_model._ridge.Ridge"
  name := "Ridge"
  hasFit := true
  hasPredict := true
  predictFn := shapePredict 3

/-- A meta model accepting any table, reporting its width. -/
def metaWidth : Estimator where
  strType := "sklearn.linear_model._base.LinearRegression"
  name := "LinearRegression"
  hasFit := true
  hasPredict := true
  predictFn := widthPredict

/-- A meta model whose predict always raises. -/
def metaNever : Estimator where
  strType := "sklearn.linear_model._coordinate_descent.Lasso"
  name := "Lasso"
  hasFit := true
  hasPredict := true
  predictFn := fun _ _ => none

/-- A user-defined regressor exposing both fit and predict but taken from
neither sklearn nor CatBoost. -/
def customModel : Estimator where
  strType := "__main__.MyRegressor"
  name := "MyRegressor"
  hasFit := true
  hasPredict := true
  predictFn := constPredict 5

/-- A four-row, one-feature training table. -/
def X4 : Table := [("x", [1, 2, 3, 4])]

/-- The matching four-row target vector. -/
def y4 : List Val := [10, 20, 30, 40]

/-- A one-row, one-feature inference table. -/
def Xt1 : Table := [("f0", [5])]

/-- A one-row, two-feature inference table. -/
def Xt2 : Table := [("a", [1]), ("b", [2])]

/-! Theorems. -/

theorem sizesSum (q r : Nat) :
    ∀ K : Nat, (((List.range K).map fun i => q + if i < r then 1 else 0)).sum
      = K * q + min r K := by
  intro K
  induction K with
  | zero => simp
  | succ K ih =>
    rw [List.range_succ, List.map_append, List.sum_append, ih]
    simp only [List.map_cons, List.map_nil, List.sum_cons, List.sum_nil]
    by_cases h : K < r
    · rw [if_pos h, min_eq_right (by omega : K ≤ r),
        min_eq_right (by omega : K + 1 ≤ r)]
      ring
    · rw [if_neg h, min_eq_left (by omega : r ≤ K),
        min_eq_left (by omega : r ≤ K + 1)]
      ring

theorem kfoldSizes_sum (N K : Nat) (hK : 1 ≤ K) : (kfoldSizes N K).sum = N := by
  unfold kfoldSizes
  rw [sizesSum, min_eq_left (le_of_lt (Nat.mod_lt _ (by omega)))]
  exact Nat.div_add_mod N K

theorem foldBlocks_flatten (szs : List Nat) :
    ∀ st : Nat,
      (((foldBlocks st szs).map fun b => (List.range b.2).map (b.1 + ·)).flatten)
        = (List.range szs.sum).map (st + ·) := by
  induction szs with
  | nil => intro st; simp [foldBlocks]
  | cons sz rest ih =>
    intro st
    simp only [foldBlocks, List.map_cons, List.flatten_cons, List.sum_cons]
    rw [ih (st + sz), List.range_add, List.map_append, List.map_map]
    congr 1
    simp [Function.comp, Nat.add_assoc]

theorem kfold_flatten (N K : Nat) (hK : 1 ≤ K) :
    (kfoldTestIndices N K).flatten = List.range N := by
  unfold kfoldTestIndices kfoldBlocks
  rw [foldBlocks_flatten, kfoldSizes_sum N K hK]
  simp

/-- C7: within one stacking call the fold partition of row positions is the
same for every estimator whose out-of-fold predictions are computed (the
splitter derived inside each cross_val_predict call is unshuffled, hence a
pure function of N and K), the meta-evaluation splitter is independent of
the seed (shuffle is off, so runs with equal (N, K, seed) agree), and the
test groups, concatenated in order, are exactly the row positions 0..N-1,
which is what makes the out-of-fold columns align row-for-row. -/
theorem claim_c7_fold_partition (e1 e2 : Estimator) (s1 s2 N K : Nat)
    (hK : 1 ≤ K) :
    oofFoldPartition e1 N K = oofFoldPartition e2 N K ∧
    metaKFoldPartition s1 N K = metaKFoldPartition s2 N K ∧
    (kfoldTestIndices N K).flatten = List.range N :=
  ⟨rfl, rfl, kfold_flatten N K hK⟩

theorem claim_c7_fold_partition_witness :
    oofFoldPartition lrModel 5 2 = oofFoldPartition ridgeModel 5 2 ∧
    metaKFoldPartition 42 5 2 = metaKFoldPartition 7 5 2 ∧
    (kfoldTestIndices 5 2).flatten = List.range 5 :=
  claim_c7_fold_partition lrModel ridgeModel 42 7 5 2 (by decide)

/-- C8: the fold splitting step fails with the invalid-fold-count condition
exactly when K is below 2 or exceeds the row count, and succeeds with the
unshuffled blocks whenever 2 <= K <= N. -/
theorem claim_c8_invalid_fold_count (N K : Nat) :
    (K < 2 ∨ K > N → foldSplit N K = .error .invalidFoldCount) ∧
    (2 ≤ K → K ≤ N → foldSplit N K = .ok (kfoldBlocks N K)) := by
  constructor
  · intro h
    unfold foldSplit
    by_cases hk : K < 2
    · rw [if_pos hk]
    · rw [if_neg hk, if_pos (by omega)]
  · intro h2 hN
    unfold foldSplit
    rw [if_neg (by omega), if_neg (by omega)]

theorem claim_c8_invalid_fold_count_witness :
    foldSplit 5 7 = .error .invalidFoldCount ∧
    foldSplit 5 2 = .ok (kfoldBlocks 5 2) :=
  ⟨(claim_c8_invalid_fold_count 5 7).1 (Or.inr (by decide)),
   (claim_c8_invalid_fold_count 5 2).2 (by decide) (by decide)⟩

theorem error_ne_of_ne {α : Type} {a b : StackErr} (h : a ≠ b) :
    (Except.error a : Except StackErr α) ≠ .error b := by
  intro hc; injection hc with h2; exact h h2

theorem foldSplit_ne (N K : Nat) :
    foldSplit N K ≠ .error .unsupportedEstimator := by
  unfold foldSplit
  split
  · exact error_ne_of_ne (by decide)
  · split
    · exact error_ne_of_ne (by decide)
    · simp

theorem oofLoop_ne (e : Estimator) (X : Table) (y : List Val) :
    ∀ bs, oofLoop e X y bs ≠ .error .unsupportedEstimator := by
  intro bs
  induction bs with
  | nil => simp [oofLoop]
  | cons b bs ih =>
    unfold oofLoop
    split
    · split
      · simp
      · rename_i err heq
        intro hc; injection hc with h2; subst h2; exact ih heq
    · exact error_ne_of_ne (by decide)

theorem crossValPredict_ne (e : Estimator) (X : Table) (y : List Val) (K : Nat) :
    crossValPredict e X y K ≠ .error .unsupportedEstimator := by
  unfold crossValPredict
  split
  · rename_i err heq
    intro hc; injection hc with h2; subst h2
    exact foldSplit_ne _ _ heq
  · exact oofLoop_ne e X y _

theorem oofColumns_ne (X : Table) (y : List Val) (K : Nat) :
    ∀ bases, oofColumns X y K bases ≠ .error .unsupportedEstimator := by
  intro bases
  induction bases with
  | nil => simp [oofColumns]
  | cons e es ih =>
    unfold oofColumns
    split
    · rename_i err heq
      intro hc; injection hc with h2; subst h2
      exact crossValPredict_ne e X y K heq
    · split
      · simp
      · rename_i err heq
        intro hc; injection hc with h2; subst h2; exact ih heq

theorem singleAssembledTable_ne (bases : List Estimator) (K : Nat)
    (restack : Bool) (X : Table) (y : List Val) :
    singleAssembledTable bases K restack X y ≠ .error .unsupportedEstimator := by
  unfold singleAssembledTable
  split
  · rename_i err heq
    intro hc; injection hc with h2; subst h2
    exact oofColumns_ne X y K bases heq
  · simp

theorem metaCVLoop_ne (dX : Table) (y : List Val) :
    ∀ bs m, metaCVLoop dX y m bs ≠ .error .unsupportedEstimator := by
  intro bs
  induction bs with
  | nil => intro m; simp [metaCVLoop]
  | cons b bs ih =>
    intro m
    unfold metaCVLoop
    split
    · exact ih _
    · exact error_ne_of_ne (by decide)

theorem setColumns_ne (t : Table) (names : List String) :
    setColumns t names ≠ .error .unsupportedEstimator := by
  unfold setColumns
  split
  · simp
  · exact error_ne_of_ne (by decide)

theorem interOofColumns_ne (tbl : Table) (y : List Val) (K iC : Nat) :
    ∀ lv mC, interOofColumns tbl y K iC mC lv ≠ .error .unsupportedEstimator := by
  intro lv
  induction lv with
  | nil => intro mC; simp [interOofColumns]
  | cons e es ih =>
    intro mC
    unfold interOofColumns
    split
    · rename_i err heq
      intro hc; injection hc with h2; subst h2
      exact crossValPredict_ne _ _ _ _ heq
    · split
      · simp
      · rename_i err heq
        intro hc; injection hc with h2; subst h2; exact ih (mC + 1) heq

theorem processInterLevel_ne (level : List Estimator) (tbl : Table)
    (y : List Val) (K : Nat) (restack : Bool) (iC : Nat) :
    processInterLevel level tbl y K restack iC ≠ .error .unsupportedEstimator := by
  unfold processInterLevel
  split
  · rename_i err heq
    intro hc; injection hc with h2; subst h2
    exact interOofColumns_ne tbl y K iC level 0 heq
  · simp

theorem interLoop_ne (y : List Val) (K : Nat) (restack : Bool) :
    ∀ lvs tbl iC, interLoop y K restack lvs tbl iC ≠ .error .unsupportedEstimator := by
  intro lvs
  induction lvs with
  | nil => intro tbl iC; simp [interLoop]
  | cons lv rest ih =>
    intro tbl iC
    unfold interLoop
    split
    · rename_i err heq
      intro hc; injection hc with h2; subst h2
      exact processInterLevel_ne lv tbl y K restack iC heq
    · split
      · simp
      · rename_i err heq
        intro hc; injection hc with h2; subst h2; exact ih _ _ heq

/-- C9 (amended): both orchestrators reject with the Value Error exactly when
some supplied object (base, level member or meta model) has a type string
containing neither sklearn nor CatBoostRegressor; the fit and predict
capabilities are never inspected by the validation. -/
theorem claim_c9_capability_check (bases : List Estimator)
    (meta? : Option Estimator) (levels : List (List Estimator)) (K : Nat)
    (restack : Bool) (X : Table) (y : List Val) :
    (stackModels bases meta? K restack X y = .error .unsupportedEstimator ↔
      estOkAll bases meta? = false) ∧
    (createStacknet levels meta? K restack X y = .error .unsupportedEstimator ↔
      netOkAll levels meta? = false) := by
  constructor
  · constructor
    · intro hc
      by_cases hv : estOkAll bases meta? = true
      · exfalso
        unfold stackModels stackModelsValidate at hc
        rw [if_pos hv] at hc
        cases h1 : singleAssembledTable bases K restack X y with
        | error err =>
          rw [h1] at hc
          simp only [Except.error.injEq] at hc
          subst hc
          exact singleAssembledTable_ne bases K restack X y h1
        | ok dataX =>
          rw [h1] at hc
          simp only [Except.error.injEq] at hc
          cases h2 : foldSplit (numRows dataX) K with
          | error err =>
            rw [h2] at hc
            simp only [Except.error.injEq] at hc
            subst hc
            exact foldSplit_ne _ _ h2
          | ok blocks =>
            rw [h2] at hc
            simp only [Except.error.injEq] at hc
            cases h3 : metaCVLoop dataX y
                ((meta?.getD linearRegressionDefault).fit dataX y) blocks with
            | error err =>
              rw [h3] at hc
              simp only [Except.error.injEq] at hc
              subst hc
              exact metaCVLoop_ne _ _ _ _ h3
            | ok m =>
              rw [h3] at hc
              simp at hc
      · cases hb : estOkAll bases meta? with
        | false => rfl
        | true => exact absurd hb hv
    · intro hv
      unfold stackModels stackModelsValidate
      rw [if_neg (by simp [hv])]
  · constructor
    · intro hc
      by_cases hv : netOkAll levels meta? = true
      · exfalso
        unfold createStacknet createStacknetValidate at hc
        rw [if_pos hv] at hc
        cases levels with
        | nil => simp at hc
        | cons baseLevel interLevels =>
          simp only [] at hc
          cases h1 : stacknetTrainBaseNames baseLevel with
          | none =>
            rw [h1] at hc
            simp at hc
          | some names =>
            rw [h1] at hc
            simp only [Except.error.injEq] at hc
            cases h2 : oofColumns X y K baseLevel with
            | error err =>
              rw [h2] at hc
              simp only [Except.error.injEq] at hc
              subst hc
              exact oofColumns_ne X y K baseLevel h2
            | ok cols =>
              rw [h2] at hc
              simp only [Except.error.injEq] at hc
              cases h3 : setColumns (cols.map fun c => ("", c)) names with
              | error err =>
                rw [h3] at hc
                simp only [Except.error.injEq] at hc
                subst hc
                exact setColumns_ne _ _ h3
              | ok baseDf0 =>
                rw [h3] at hc
                simp only [Except.error.injEq] at hc
                cases h4 : interLoop y K restack interLevels
                    (if restack then X ++ baseDf0 else baseDf0) 0 with
                | error err =>
                  rw [h4] at hc
                  simp only [Except.error.injEq] at hc
                  subst hc
                  exact interLoop_ne y K restack _ _ _ h4
                | ok p =>
                  cases p with
                  | mk fls finalTbl =>
                    rw [h4] at hc
                    simp only [Except.error.injEq] at hc
                    cases h5 : foldSplit (numRows finalTbl) K with
                    | error err =>
                      rw [h5] at hc
                      simp only [Except.error.injEq] at hc
                      subst hc
                      exact foldSplit_ne _ _ h5
                    | ok blocks =>
                      rw [h5] at hc
                      simp only [Except.error.injEq] at hc
                      cases h6 : metaCVLoop finalTbl y
                          ((meta?.getD linearRegressionDefault).fit finalTbl y)
                          blocks with
                      | error err =>
                        rw [h6] at hc
                        simp only [Except.error.injEq] at hc
                        subst hc
                        exact metaCVLoop_ne _ _ _ _ h6
                      | ok m =>
                        rw [h6] at hc
                        simp at hc
      · cases hb : netOkAll levels meta? with
        | false => rfl
        | true => exact absurd hb hv
    · intro hv
      unfold createStacknet createStacknetValidate
      rw [if_neg (by simp [hv])]

/-- C9 counterexample: an object exposing both fit and predict, but coming
from neither library, is rejected by stack_models with the Value Error; the
claim as stated says any object exposing both capabilities is accepted. -/
theorem claim_c9_counterexample :
    customModel.hasFit = true ∧ customModel.hasPredict = true ∧
    stackModels [customModel] none 2 false X4 y4 =
      .error .unsupportedEstimator :=
  ⟨rfl, rfl, rfl⟩

theorem metaCVLoop_fields (dX : Table) (y : List Val) :
    ∀ bs m m2, metaCVLoop dX y m bs = .ok m2 →
      m2.name = m.name ∧ m2.strType = m.strType := by
  intro bs
  induction bs with
  | nil =>
    intro m m2 h
    simp only [metaCVLoop, Except.ok.injEq] at h
    subst h
    exact ⟨rfl, rfl⟩
  | cons b bs ih =>
    intro m m2 h
    unfold metaCVLoop at h
    split at h
    · exact ih (m.fit (trainRows dX b) (trainVals y b)) m2 h
    · simp at h

theorem processInterLevel_fitted (lv : List Estimator) (tbl : Table)
    (y : List Val) (K : Nat) (r : Bool) (iC : Nat) :
    ∀ f c, processInterLevel lv tbl y K r iC = .ok (f, c) →
      f = lv.map fun e => e.fit tbl y := by
  intro f c h
  unfold processInterLevel at h
  cases hio : interOofColumns tbl y K iC 0 lv with
  | error err => rw [hio] at h; simp at h
  | ok cols =>
    rw [hio] at h
    simp only [Except.ok.injEq, Prod.mk.injEq] at h
    exact h.1.symm

theorem interLoop_names (y : List Val) (K : Nat) (r : Bool) :
    ∀ lvs tbl iC fls t, interLoop y K r lvs tbl iC = .ok (fls, t) →
      fls.map (fun l => l.map Estimator.name)
        = lvs.map (fun l => l.map Estimator.name) := by
  intro lvs
  induction lvs with
  | nil =>
    intro tbl iC fls t h
    simp only [interLoop, Except.ok.injEq, Prod.mk.injEq] at h
    rw [← h.1]
  | cons lv rest ih =>
    intro tbl iC fls t h
    unfold interLoop at h
    cases hp : processInterLevel lv tbl y K r iC with
    | error err => rw [hp] at h; simp at h
    | ok q =>
      cases q with
      | mk fitted carried =>
        rw [hp] at h
        simp only [Except.error.injEq] at h
        cases hr : interLoop y K r rest carried (iC + 1) with
        | error err => rw [hr] at h; simp at h
        | ok q2 =>
          cases q2 with
          | mk fls2 t2 =>
            rw [hr] at h
            simp only [Except.ok.injEq, Prod.mk.injEq] at h
            obtain ⟨h1, h2⟩ := h
            subst h1
            subst h2
            have hf := processInterLevel_fitted lv tbl y K r iC fitted carried hp
            subst hf
            simp only [List.map_cons]
            refine congrArg₂ List.cons ?_ (ih _ _ _ _ hr)
            rw [List.map_map]
            rfl

/-- C6: each successful stack_models call returns the flat list of the base
estimator objects fitted on the supplied data, in caller order, then the
meta estimator object, then the restack flag; each successful
create_stacknet call returns the nested list of per-level fitted estimator
lists, preserving the level count and the per-level estimator names and
order, then the meta estimator, then the restack flag. -/
theorem claim_c6_container_shape :
    (∀ (bases : List Estimator) (meta? : Option Estimator) (K : Nat)
      (r : Bool) (X : Table) (y : List Val) (c : List StackElem),
      stackModels bases meta? K r X y = .ok c →
      ∃ m, c = (bases.map fun e => StackElem.est (e.fit X y))
          ++ [.est m, .flag r] ∧
        m.name = (meta?.getD linearRegressionDefault).name ∧
        m.strType = (meta?.getD linearRegressionDefault).strType) ∧
    (∀ (levels : List (List Estimator)) (meta? : Option Estimator) (K : Nat)
      (r : Bool) (X : Table) (y : List Val) (c : List NetElem),
      createStacknet levels meta? K r X y = .ok c →
      ∃ (fls : List (List Estimator)) (m : Estimator),
        c = fls.map NetElem.level ++ [.est m, .flag r] ∧
        fls.map (fun l => l.map Estimator.name)
          = levels.map (fun l => l.map Estimator.name) ∧
        m.name = (meta?.getD linearRegressionDefault).name) := by
  constructor
  · intro bases meta? K r X y c h
    unfold stackModels stackModelsValidate at h
    by_cases hv : estOkAll bases meta? = true
    · rw [if_pos hv] at h
      cases h1 : singleAssembledTable bases K r X y with
      | error err => rw [h1] at h; simp at h
      | ok dataX =>
        rw [h1] at h
        simp only [Except.error.injEq] at h
        cases h2 : foldSplit (numRows dataX) K with
        | error err => rw [h2] at h; simp at h
        | ok blocks =>
          rw [h2] at h
          simp only [Except.error.injEq] at h
          cases h3 : metaCVLoop dataX y
              ((meta?.getD linearRegressionDefault).fit dataX y) blocks with
          | error err => rw [h3] at h; simp at h
          | ok mF =>
            rw [h3] at h
            simp only [Except.ok.injEq] at h
            subst h
            refine ⟨mF, ?_, ?_, ?_⟩
            · rw [List.map_map]
              rfl
            · exact (metaCVLoop_fields dataX y blocks _ mF h3).1
            · exact (metaCVLoop_fields dataX y blocks _ mF h3).2
    · rw [if_neg hv] at h
      simp at h
  · intro levels meta? K r X y c h
    unfold createStacknet createStacknetValidate at h
    by_cases hv : netOkAll levels meta? = true
    · rw [if_pos hv] at h
      cases levels with
      | nil => simp at h
      | cons baseLevel interLevels =>
        simp only [] at h
        cases h1 : stacknetTrainBaseNames baseLevel with
        | none => rw [h1] at h; simp at h
        | some names =>
          rw [h1] at h
          simp only [Except.error.injEq] at h
          cases h2 : oofColumns X y K baseLevel with
          | error err => rw [h2] at h; simp at h
          | ok cols =>
            rw [h2] at h
            simp only [Except.error.injEq] at h
            cases h3 : setColumns (cols.map fun c => ("", c)) names with
            | error err => rw [h3] at h; simp at h
            | ok baseDf0 =>
              rw [h3] at h
              simp only [Except.error.injEq] at h
              cases h4 : interLoop y K r interLevels
                  (if r then X ++ baseDf0 else baseDf0) 0 with
              | error err => rw [h4] at h; simp at h
              | ok p =>
                cases p with
                | mk fls finalTbl =>
                  rw [h4] at h
                  simp only [Except.error.injEq] at h
                  cases h5 : foldSplit (numRows finalTbl) K with
                  | error err => rw [h5] at h; simp at h
                  | ok blocks =>
                    rw [h5] at h
                    simp only [Except.error.injEq] at h
                    cases h6 : metaCVLoop finalTbl y
                        ((meta?.getD linearRegressionDefault).fit finalTbl y)
                        blocks with
                    | error err => rw [h6] at h; simp at h
                    | ok mF =>
                      rw [h6] at h
                      simp only [Except.ok.injEq] at h
                      subst h
                      refine ⟨(baseLevel.map fun e => e.fit X y) :: fls, mF,
                        ?_, ?_, ?_⟩
                      · rfl
                      · simp only [List.map_cons]
                        refine congrArg₂ List.cons ?_
                          (interLoop_names y K r interLevels _ _ _ _ h4)
                        rw [List.map_map]
                        rfl
                      · exact (metaCVLoop_fields finalTbl y blocks _ mF h6).1
    · rw [if_neg hv] at h
      simp at h

theorem interOofColumns_length (tbl : Table) (y : List Val) (K iC : Nat) :
    ∀ lv mC cols, interOofColumns tbl y K iC mC lv = .ok cols →
      cols.length = lv.length := by
  intro lv
  induction lv with
  | nil =>
    intro mC cols h
    simp only [interOofColumns, Except.ok.injEq] at h
    subst h
    rfl
  | cons e es ih =>
    intro mC cols h
    unfold interOofColumns at h
    cases h1 : crossValPredict (e.fit tbl y) tbl y K with
    | error err => rw [h1] at h; simp at h
    | ok oof =>
      rw [h1] at h
      simp only [Except.error.injEq] at h
      cases h2 : interOofColumns tbl y K iC (mC + 1) es with
      | error err => rw [h2] at h; simp at h
      | ok rest =>
        rw [h2] at h
        simp only [Except.ok.injEq] at h
        subst h
        simp [ih (mC + 1) rest h2]

/-- With restack off, the table carried out of an intermediate level is
exactly the list of that level column outputs and nothing else (the rule the
spec states for create_stacknet; it holds whenever the level is reached). -/
theorem processInterLevel_carry (lv : List Estimator) (tbl : Table)
    (y : List Val) (K iC : Nat) (f : List Estimator) (c : Table)
    (h : processInterLevel lv tbl y K false iC = .ok (f, c)) :
    interOofColumns tbl y K iC 0 lv = .ok c := by
  unfold processInterLevel at h
  cases h1 : interOofColumns tbl y K iC 0 lv with
  | error err => rw [h1] at h; simp at h
  | ok cols =>
    rw [h1] at h
    simp only [Except.ok.injEq, Prod.mk.injEq, Bool.false_eq_true, if_false] at h
    obtain ⟨hf, hcarry⟩ := h
    have hlen := interOofColumns_length tbl y K iC lv 0 cols h1
    rw [← hcarry, List.length_append, hlen, Nat.add_sub_cancel, List.drop_left]

theorem claim_c6_container_shape_witness :
    (∃ m, ([StackElem.est (lrModel.fit X4 y4),
        .est (metaShape.fit [("LinearRegression_0", [1, 1])] [10, 20]),
        .flag false] : List StackElem)
        = ([lrModel].map fun e => StackElem.est (e.fit X4 y4))
          ++ [.est m, .flag false] ∧
      m.name = ((some metaShape).getD linearRegressionDefault).name ∧
      m.strType = ((some metaShape).getD linearRegressionDefault).strType) ∧
    (∃ (fls : List (List Estimator)) (m : Estimator),
      ([NetElem.level [lrModel.fit X4 y4],
        .level [dtModel.fit [("LinearRegression_BaseLevel_0", [1, 1, 1, 1])] y4],
        .est (metaShape.fit
          [("DecisionTreeRegressor_InterLevel_0_0", [7, 7])] [10, 20]),
        .flag false] : List NetElem)
        = fls.map NetElem.level ++ [.est m, .flag false] ∧
      fls.map (fun l => l.map Estimator.name)
        = ([[lrModel], [dtModel]].map fun l => l.map Estimator.name) ∧
      m.name = ((some metaShape).getD linearRegressionDefault).name) :=
  ⟨claim_c6_container_shape.1 [lrModel] (some metaShape) 2 false X4 y4 _ rfl,
   claim_c6_container_shape.2 [[lrModel], [dtModel]] (some metaShape) 2 false
     X4 y4 _ rfl⟩

/-- C1: code bug.  For a base level of two non CatBoost estimators, training
(create_stacknet) computes a single base-level column name, because the
CatBoost fixup loop at regression.py:4349-4354 has its else clause aligned
with the for statement (a for-else running once, appending only the last
name), and the column assignment at line 4435 then fails with a pandas
length mismatch; inference (predict_model) computes the two names the naming
contract prescribes.  The claim that training and inference produce the same
list of k names for k estimators fails. -/
theorem claim_c1_base_naming_diverges :
    stacknetTrainBaseNames [lrModel, ridgeModel] = some ["Ridge_BaseLevel_0"] ∧
    stacknetInferBaseNames [lrModel, ridgeModel] =
      ["LinearRegression_BaseLevel_0", "Ridge_BaseLevel_1"] ∧
    createStacknet [[lrModel, ridgeModel]] (some metaShape) 2 false X4 y4 =
      .error .lengthMismatch :=
  ⟨rfl, rfl, rfl⟩

/-- C4: code bug.  The multi-layer scenario with layers [[A, B], [C]] and
restack off never reaches the intermediate level or the meta estimator: the
base-level column naming slip (see C1) aborts create_stacknet with the
pandas length mismatch, so no one-column table is ever fed to the meta
estimator.  (The carry rule itself, when a level is reached, is proved in
processInterLevel_carry.) -/
theorem claim_c4_stacknet_crashes_before_meta :
    createStacknet [[lrModel, ridgeModel], [dtModel]] (some metaShape) 2
      false X4 y4 = .error .lengthMismatch :=
  rfl

/-- C5: code bug.  After the deployable fit of the meta estimator on the
full assembled table, stack_models re-fits the very same object inside the
scoring loop (regression.py:4029-4033); the container element therefore ends
up fitted on the training rows of the LAST fold, not on the full assembled
table.  Concretely: the assembled table has the four out-of-fold rows, but
the returned meta estimator is fitted on rows 0..1 only. -/
theorem claim_c5_meta_refit_mutation :
    singleAssembledTable [dtModel] 2 false X4 y4 =
      .ok [("DecisionTreeRegressor_0", [7, 7, 7, 7])] ∧
    stackModels [dtModel] (some metaShape) 2 false X4 y4 =
      .ok [.est (dtModel.fit X4 y4),
        .est (metaShape.fit [("DecisionTreeRegressor_0", [7, 7])] [10, 20]),
        .flag false] ∧
    (metaShape.fit [("DecisionTreeRegressor_0", [7, 7])] [10, 20]).fittedOn ≠
      some ([("DecisionTreeRegressor_0", [7, 7, 7, 7])], y4) :=
  ⟨rfl, rfl, by decide⟩

/-- C2 (amended): the single-layer inference branch ignores the stored
restack flag entirely; it predicts with the meta estimator on the
NON-restacked base-prediction table first, and falls back to the restacked
table [Xtest, df] only when the meta estimator rejects the non-restacked
one.  (The spec states the opposite order.) -/
theorem claim_c2_fallback_order (bases : List Estimator) (meta : Estimator)
    (r r2 : Bool) (Xt df : Table)
    (hdf : singleBasePredTable bases Xt = .ok df) :
    predictSingleCore bases meta r Xt = predictSingleCore bases meta r2 Xt ∧
    (∀ v, meta.predict df = some v →
      predictSingleCore bases meta r Xt = .ok v) ∧
    (meta.predict df = none → ∀ v, meta.predict (Xt ++ df) = some v →
      predictSingleCore bases meta r Xt = .ok v) := by
  refine ⟨rfl, ?_, ?_⟩
  · intro v hv
    simp only [predictSingleCore, hdf, hv]
  · intro h0 v hv
    simp only [predictSingleCore, hdf, h0, hv]

theorem claim_c2_fallback_order_witness :
    predictSingleCore [lrModel, ridgeModel] metaWidth true Xt1 =
      .ok [(2 : ℚ)] :=
  (claim_c2_fallback_order [lrModel, ridgeModel] metaWidth true false Xt1
    [("LinearRegression_0", [1]), ("Ridge_1", [2])] rfl).2.1 [(2 : ℚ)] rfl

/-- C2 counterexample: a container whose stored restack flag is TRUE, whose
meta estimator accepts both tables (it reports the width of whatever it
receives).  The claim as stated demands prediction on the restacked table
(width 3); the code predicts on the non-restacked table (width 2) and never
consults the flag. -/
theorem claim_c2_counterexample :
    singleBasePredTable [lrModel, ridgeModel] Xt1 =
      .ok [("LinearRegression_0", [1]), ("Ridge_1", [2])] ∧
    metaWidth.predict
        (Xt1 ++ [("LinearRegression_0", [1]), ("Ridge_1", [2])]) =
      some [(3 : ℚ)] ∧
    predictSingleCore [lrModel, ridgeModel] metaWidth true Xt1 =
      .ok [(2 : ℚ)] ∧
    (3 : ℚ) ≠ 2 :=
  ⟨rfl, rfl, rfl, by decide⟩

/-- C3 (amended): the inference branch performs no column-count check of its
own; the only shape handling is the documented try / except fallback, and
when the meta estimator rejects both the non-restacked and the restacked
table the underlying estimator error propagates as-is. -/
theorem claim_c3_no_explicit_shape_check (bases : List Estimator)
    (meta : Estimator) (r : Bool) (Xt df : Table)
    (hdf : singleBasePredTable bases Xt = .ok df)
    (h1 : meta.predict df = none) (h2 : meta.predict (Xt ++ df) = none) :
    predictSingleCore bases meta r Xt = .error .estimatorRaise := by
  simp only [predictSingleCore, hdf, h1, h2]

theorem claim_c3_no_explicit_shape_check_witness :
    predictSingleCore [dtModel] (metaShape.fit Xt2 [0]) false Xt2 =
      .error .estimatorRaise :=
  claim_c3_no_explicit_shape_check [dtModel] (metaShape.fit Xt2 [0]) false
    Xt2 [("DecisionTreeRegressor_0", [7])] rfl rfl rfl

/-- C3 counterexample: a meta estimator trained on two columns receives a
reconstructed one-column table (and a three-column restacked fallback);
neither width matches, and predict_model surfaces the propagated estimator
error rather than any shape failure raised by the module itself. -/
theorem claim_c3_counterexample :
    (metaShape.fit Xt2 [0]).fittedOn = some (Xt2, [0]) ∧
    Xt2.length = 2 ∧
    ([("DecisionTreeRegressor_0", [(7 : ℚ)])] : Table).length = 1 ∧
    singleBasePredTable [dtModel] Xt2 =
      .ok [("DecisionTreeRegressor_0", [7])] ∧
    predictSingleCore [dtModel] (metaShape.fit Xt2 [0]) false Xt2 =
      .error .estimatorRaise :=
  ⟨rfl, rfl, rfl, rfl, rfl⟩

/-- C10: when the single-layer inference branch is given an external data
table and succeeds, the returned table is the untransformed input columns
unchanged, with exactly one column named Label appended, whose values are
the meta estimator final predictions rounded to the requested number of
decimal places (the source default for the round parameter is 4). -/
theorem claim_c10_label_column (transform : Table → Table)
    (bases : List Estimator) (meta : Estimator) (r : Bool) (data : Table)
    (d : Nat) (out : Table)
    (h : predictModelDataSingle transform bases meta r data d = .ok out) :
    ∃ pred, predictSingleCore bases meta r (transform data) = .ok pred ∧
      out = data ++ [("Label", pred.map (roundDec d))] := by
  unfold predictModelDataSingle at h
  cases hp : predictSingleCore bases meta r (transform data) with
  | ok pred =>
    rw [hp] at h
    simp only [Except.ok.injEq] at h
    exact ⟨pred, rfl, h.symm⟩
  | error err =>
    rw [hp] at h
    simp at h

theorem claim_c10_label_column_witness :
    ∃ pred, predictSingleCore [dtModel] metaWidth false
        (id [("x", [(1 : ℚ), 2])]) = .ok pred ∧
      ([("x", [(1 : ℚ), 2]), ("Label", [1, 1])] : Table) =
        [("x", [(1 : ℚ), 2])] ++ [("Label", pred.map (roundDec 4))] :=
  claim_c10_label_column id [dtModel] metaWidth false [("x", [1, 2])] 4
    [("x", [1, 2]), ("Label", [1, 1])] (by rfl)

end Pycaret
